import Mathlib

/-!
Verification development for a small TypeScript concurrency runtime with three
components: `Thread` (an isolated worker channel built on `worker_threads`),
`Queue` (a worker pool dispatching a FIFO backlog onto idle threads), and
`Parallel` (an in-process bounded-concurrency runner).  Each definition below
is a shallow embedding of the corresponding source function; JavaScript
numbers that only ever hold small non-negative integers are embedded as `Nat`,
promise settlement as an explicit settlement value, and the single-threaded
event loop as a labelled small-step transition relation whose atomic steps are
exactly the synchronous segments between `await` suspension points of the
source.
-/

/-- A JavaScript `Error` value: only its message is relevant here. -/
structure JsError where
  message : String
deriving DecidableEq, Repr

namespace ThreadModel

/-- Observable part of a `Thread` instance: whether the `_resolver` and
`_rejector` fields currently hold functions (they are `undefined` until
`post` stores both, and the source never clears them). -/
structure TState where
  resolverSet : Bool
  rejectorSet : Bool
deriving DecidableEq, Repr

/-- Settlement of the promise returned by `Thread.post`. -/
inductive Settle (α : Type) where
  | resolved (data : Option α)
  | rejected (e : JsError)
deriving DecidableEq, Repr

/-- Events the underlying worker can emit, as wired up in the `Thread`
constructor: a reply message, an error, or an exit with a status code. -/
inductive WorkerEvent (α : Type) where
  | message (v : α)
  | error (e : JsError)
  | exit (signal : Nat)
deriving DecidableEq, Repr

/-- `Thread._receiveMessage(err, data)`: if either callback field is unset the
event is dropped; otherwise an error rejects and anything else resolves with
the (possibly null) data.  The source mutates no field here, so the state is
returned unchanged along with the settlement, if any. -/
def receiveMessage (s : TState) (err : Option JsError) (data : Option α) :
    TState × Option (Settle α) :=
  if s.resolverSet = false ∨ s.rejectorSet = false then (s, none)
  else
    match err with
    | some e => (s, some (Settle.rejected e))
    | none => (s, some (Settle.resolved data))

/-- The three listeners registered in the `Thread` constructor:
`message` forwards the payload, `error` forwards the error, and `exit`
rejects with `new Error("Internal error")` on signal 0 but resolves with a
null payload on any non-zero signal. -/
def onEvent (s : TState) : WorkerEvent α → TState × Option (Settle α)
  | WorkerEvent.message v => receiveMessage s none (some v)
  | WorkerEvent.error e => receiveMessage s (some e) none
  | WorkerEvent.exit signal =>
      if signal = 0 then receiveMessage s (some ⟨"Internal error"⟩) none
      else receiveMessage s none none

/-- Outcome of the static `Thread.Execute(script, data)` helper, given the
settlement of the single `thread.post(data)` request.  In the source the body
is `const thread = new Thread(script); const result = await thread.post(data);
thread.close(); return result;` — a rejection of the awaited promise
propagates out of `Execute` before the `thread.close()` line runs, so the
channel is only closed on the success path. -/
structure ExecTrace (α : Type) where
  requestsIssued : Nat
  channelClosed : Bool
  result : Except JsError α
deriving Repr

/-- `Thread.Execute`, as a function of the settlement of its one request. -/
def execute (postOutcome : Except JsError α) : ExecTrace α :=
  match postOutcome with
  | Except.ok v => { requestsIssued := 1, channelClosed := true, result := Except.ok v }
  | Except.error e => { requestsIssued := 1, channelClosed := false, result := Except.error e }

end ThreadModel

open ThreadModel in
/-- C3: with a request pending (both callbacks registered), a worker exit with
the clean status 0 rejects the pending future with the internal error, while
an exit with any non-zero status resolves it with a null payload; the thread
fields are untouched either way. -/
theorem C3_exit_status_inversion (α : Type) (s : TState) (signal : Nat)
    (hres : s.resolverSet = true) (hrej : s.rejectorSet = true) :
    onEvent s (WorkerEvent.exit 0 : WorkerEvent α)
        = (s, some (Settle.rejected ⟨"Internal error"⟩))
      ∧ (signal ≠ 0 →
        onEvent s (WorkerEvent.exit signal : WorkerEvent α)
          = (s, some (Settle.resolved none))) := by
  constructor
  · simp [onEvent, receiveMessage, hres, hrej]
  · intro hsig
    simp [onEvent, receiveMessage, hres, hrej, hsig]

open ThreadModel in
/-- Witness for C3 at the concrete state with both callbacks set and exit
signal 1. -/
theorem C3_exit_status_inversion_witness :
    onEvent ⟨true, true⟩ (WorkerEvent.exit 0 : WorkerEvent Nat)
        = (⟨true, true⟩, some (Settle.rejected ⟨"Internal error"⟩))
      ∧ onEvent ⟨true, true⟩ (WorkerEvent.exit 1 : WorkerEvent Nat)
        = (⟨true, true⟩, some (Settle.resolved none)) :=
  ⟨(C3_exit_status_inversion Nat ⟨true, true⟩ 1 rfl rfl).1,
   (C3_exit_status_inversion Nat ⟨true, true⟩ 1 rfl rfl).2 (by decide)⟩

open ThreadModel in
/-- C9: with no request pending (neither callback registered), every worker
event — message, error, or exit with any status — is dropped: no settlement is
produced and the thread state is unchanged. -/
theorem C9_events_ignored_without_pending (α : Type) (s : TState)
    (ev : WorkerEvent α) (hres : s.resolverSet = false) :
    onEvent s ev = (s, none) := by
  cases ev with
  | message v => simp [onEvent, receiveMessage, hres]
  | error e => simp [onEvent, receiveMessage, hres]
  | exit signal =>
      by_cases hsig : signal = 0 <;>
        simp [onEvent, receiveMessage, hres, hsig]

open ThreadModel in
/-- Witness for C9 at the freshly constructed thread state and two concrete
events. -/
theorem C9_events_ignored_without_pending_witness :
    onEvent ⟨false, false⟩ (WorkerEvent.message 7) = (⟨false, false⟩, none)
      ∧ onEvent ⟨false, false⟩ (WorkerEvent.exit 0 : WorkerEvent Nat)
        = (⟨false, false⟩, none) :=
  ⟨C9_events_ignored_without_pending Nat ⟨false, false⟩ (WorkerEvent.message 7) rfl,
   C9_events_ignored_without_pending Nat ⟨false, false⟩ (WorkerEvent.exit 0) rfl⟩

open ThreadModel in
/-- C8 counterexample: when the single request of `Thread.Execute` settles
with a failure, the channel is not terminated — `thread.close()` is skipped
because the rejected `await` propagates first.  This refutes the claim that
the channel is terminated whether the request settles with success or with
failure. -/
theorem C8_execute_close_cex :
    (execute (Except.error ⟨"boom"⟩ : Except JsError Nat)).channelClosed = false :=
  rfl

open ThreadModel in
/-- C8 amended: `Thread.Execute` issues exactly one request, returns the
success value or propagates the failure unchanged, and terminates the channel
exactly when the request settles successfully (on failure the channel is
leaked). -/
theorem C8_execute_amended (α : Type) (r : Except JsError α) :
    (execute r).requestsIssued = 1
      ∧ (execute r).result = r
      ∧ ((execute r).channelClosed = true ↔ ∃ v, r = Except.ok v) := by
  cases r with
  | ok v => exact ⟨rfl, rfl, by simp [execute]⟩
  | error e => exact ⟨rfl, rfl, by simp [execute]⟩

namespace ParallelModel

/-- Program point of one in-flight `Parallel.consume` invocation, between its
suspension points.  `calling v` is the first `await this.handler(...)` for the
claim value `v`; `backoff v d` is the `setTimeout` wait of `d` milliseconds
after a first failure; `retrying v a` is the second `await this.handler(a)`,
whose argument `a` re-reads the shared `offsetCount` after the backoff. -/
inductive Phase where
  | calling (v : Nat)
  | backoff (v : Nat) (d : Nat)
  | retrying (v : Nat) (a : Nat)
deriving DecidableEq, Repr

/-- The fixed retry backoff from `new Promise(res => setTimeout(res, 5000))`. -/
def retryDelay : Nat := 5000

/-- State of a `Parallel` instance together with ghost fields: `pending`
counts `consume()` calls scheduled by `start`/`resume` whose synchronous
prefix has not run yet, `tasks` the in-flight invocations, `claimed` the
arguments of first handler invocations (newest first), `retries` the pairs
(claim value, retry argument) of retry invocations, and `errors` the offsets
logged on a second failure. -/
structure PState where
  count : Nat
  conc : Nat
  offset : Nat
  processing : Nat
  paused : Bool
  finished : Bool
  pending : Nat
  tasks : List Phase
  claimed : List Nat
  retries : List (Nat × Nat)
  errors : List Nat
deriving DecidableEq, Repr

/-- The effective concurrency width fixed by the `Parallel` constructor:
`this.concurrency = options.concurrency || options.count` (a falsy, i.e.
zero, argument falls back to `count`), then
`if (this.count < this.concurrency) this.concurrency = this.count`. -/
def mkConcurrency (count conc : Nat) : Nat :=
  let c := if conc = 0 then count else conc
  if count < c then count else c

/-- State after `new Parallel(options)` followed by `start()`, which schedules
`concurrency` invocations of `consume`. -/
def init (count conc : Nat) : PState :=
  { count := count
    conc := mkConcurrency count conc
    offset := 0
    processing := 0
    paused := false
    finished := false
    pending := mkConcurrency count conc
    tasks := []
    claimed := []
    retries := []
    errors := [] }

/-- The synchronous prefix of `consume()`: `this.processingCount++;
this.offsetCount++;` and the call `this.handler(this.offsetCount)`, whose
argument is the just-incremented cursor. -/
def claimTask (s : PState) : PState :=
  { s with
      offset := s.offset + 1
      processing := s.processing + 1
      tasks := Phase.calling (s.offset + 1) :: s.tasks
      claimed := (s.offset + 1) :: s.claimed }

/-- The synchronous tail of `consume()` after the handler settles:
`this.processingCount--`, then the finish check `offsetCount === count`
(firing the finish handler), else the reschedule check
`!paused && offsetCount + processingCount < count`, which re-runs the
synchronous prefix of a fresh `consume()`.  Both checks read the already
decremented processing count. -/
def settleCont (s : PState) : PState :=
  if s.offset = s.count then
    { s with processing := s.processing - 1, finished := true }
  else if s.paused = false ∧ s.offset + (s.processing - 1) < s.count then
    claimTask { s with processing := s.processing - 1 }
  else
    { s with processing := s.processing - 1 }

/-- Result of calling `Parallel.pause()`: either the early-return branch
(an already resolved promise) or the polling branch (a promise that resolves
when the processing count drains). -/
inductive PauseResult where
  | immediateResolve
  | resolveWhenDrained
deriving DecidableEq, Repr

/-- `Parallel.pause()`.  The guard in the source is
`this.processingCount === 0 || this.pause`; `this.pause` is the method
itself — a function object, always truthy — embedded as `True`.  The branch
that would set `this.paused = true` and poll the processing count is
therefore unreachable. -/
def pauseFn (s : PState) : PState × PauseResult :=
  if s.processing = 0 ∨ True then (s, PauseResult.immediateResolve)
  else ({ s with paused := true }, PauseResult.resolveWhenDrained)

/-- `Parallel.resume()` past its `processingCount > 0` guard: clears the
paused flag, recomputes `this.concurrency = Math.min(this.concurrency,
this.count - this.concurrency)` and schedules that many `consume()` calls. -/
def resumeFn (s : PState) : PState :=
  let c := min s.conc (s.count - s.conc)
  { s with paused := false, conc := c, pending := s.pending + c }

/-- Labels of the atomic steps of the event loop while a `Parallel` instance
runs: the synchronous prefix of a scheduled `consume`, the settlement of a
first handler call (success or failure), the end of a retry backoff, the
settlement of a retry call, and the `pause`/`resume` methods. -/
inductive PLabel where
  | claim
  | firstOk (v : Nat)
  | firstFail (v : Nat)
  | backoffDone (v : Nat) (a : Nat)
  | retryOk (v : Nat) (a : Nat)
  | retryFail (v : Nat) (a : Nat)
  | pauseCall
  | resumeCall
deriving DecidableEq, Repr

/-- One atomic step of the event loop.  Each constructor is one synchronous
segment of the source between suspension points. -/
inductive PStep : PState → PLabel → PState → Prop where
  | start_claim {s : PState} :
      s.pending ≠ 0 →
      PStep s PLabel.claim (claimTask { s with pending := s.pending - 1 })
  | first_ok {s : PState} {v : Nat} :
      Phase.calling v ∈ s.tasks →
      PStep s (PLabel.firstOk v)
        (settleCont { s with tasks := s.tasks.erase (Phase.calling v) })
  | first_fail {s : PState} {v : Nat} :
      Phase.calling v ∈ s.tasks →
      PStep s (PLabel.firstFail v)
        { s with tasks := Phase.backoff v retryDelay :: s.tasks.erase (Phase.calling v) }
  | backoff_done {s : PState} {v d : Nat} :
      Phase.backoff v d ∈ s.tasks →
      PStep s (PLabel.backoffDone v s.offset)
        { s with
            tasks := Phase.retrying v s.offset :: s.tasks.erase (Phase.backoff v d)
            retries := (v, s.offset) :: s.retries }
  | retry_ok {s : PState} {v a : Nat} :
      Phase.retrying v a ∈ s.tasks →
      PStep s (PLabel.retryOk v a)
        (settleCont { s with tasks := s.tasks.erase (Phase.retrying v a) })
  | retry_fail {s : PState} {v a : Nat} :
      Phase.retrying v a ∈ s.tasks →
      PStep s (PLabel.retryFail v a)
        (settleCont { s with
            tasks := s.tasks.erase (Phase.retrying v a)
            errors := s.offset :: s.errors })
  | pause_call {s : PState} :
      PStep s PLabel.pauseCall (pauseFn s).1
  | resume_call {s : PState} :
      s.processing = 0 →
      PStep s PLabel.resumeCall (resumeFn s)

/-- Reachability from a given state by event-loop steps. -/
inductive PReach (s0 : PState) : PState → Prop where
  | refl : PReach s0 s0
  | step {s s' : PState} {l : PLabel} :
      PReach s0 s → PStep s l s' → PReach s0 s'

end ParallelModel

open ParallelModel in
/-- C10: the effective concurrency width of a `Parallel` is `count` when the
concurrency option is falsy (zero), and `min(concurrency, count)` otherwise. -/
theorem C10_concurrency_clamp (count conc : Nat) :
    (conc = 0 → mkConcurrency count conc = count)
      ∧ (conc ≠ 0 → mkConcurrency count conc = min conc count) := by
  constructor
  · intro h
    simp [mkConcurrency, h]
  · intro h
    simp only [mkConcurrency, h, if_neg h, if_false]
    rcases Nat.lt_or_ge count conc with hlt | hge
    · simp [hlt, Nat.min_eq_right (Nat.le_of_lt hlt)]
    · simp [Nat.not_lt.mpr hge, Nat.min_eq_left hge]

open ParallelModel in
/-- Witness for C10 at count 5 with the falsy width 0 and the oversized
width 7. -/
theorem C10_concurrency_clamp_witness :
    mkConcurrency 5 0 = 5 ∧ mkConcurrency 5 7 = min 7 5 :=
  ⟨(C10_concurrency_clamp 5 0).1 rfl, (C10_concurrency_clamp 5 7).2 (by decide)⟩

open ParallelModel in
/-- C4 (code bug): `Parallel.pause()` never pauses.  Its guard reads the
always-truthy method reference `this.pause` instead of the flag
`this.paused`, so for every state — in particular with a positive processing
count — it takes the early-return branch: the state is unchanged (the paused
flag is never set) and the returned promise is already resolved, instead of
resolving when the processing count reaches zero. -/
theorem C4_pause_never_pauses (s : PState) :
    pauseFn s = (s, PauseResult.immediateResolve) := by
  simp [pauseFn]

namespace ParallelModel

/-- `pauseFn` always takes the early-return branch, because its guard
disjunct embedding the truthy method reference is `True`. -/
theorem pauseFn_eq (s : PState) : pauseFn s = (s, PauseResult.immediateResolve) := by
  simp [pauseFn]

/-- `settleCont` never touches the error log. -/
theorem settleCont_errors (t : PState) : (settleCont t).errors = t.errors := by
  unfold settleCont
  split
  · rfl
  · split
    · rfl
    · rfl

/-- Ghost invariant behind C2: the claim values handed out so far are exactly
`1 .. offset`, newest first. -/
def claimedInv (s : PState) : Prop :=
  s.claimed.reverse = (List.range s.offset).map (· + 1)

theorem claimedInv_claimTask {s : PState} (h : claimedInv s) :
    claimedInv (claimTask s) := by
  unfold claimedInv at h ⊢
  simp only [claimTask, List.reverse_cons, List.range_succ, List.map_append,
    List.map_cons, List.map_nil, h]

theorem claimedInv_settleCont {s : PState} (h : claimedInv s) :
    claimedInv (settleCont s) := by
  unfold settleCont
  split
  · exact h
  · split
    · exact claimedInv_claimTask h
    · exact h

theorem claimedInv_step {s s' : PState} {l : PLabel}
    (hs : PStep s l s') (h : claimedInv s) : claimedInv s' := by
  cases hs with
  | start_claim h0 => exact claimedInv_claimTask h
  | first_ok hm => exact claimedInv_settleCont h
  | first_fail hm => exact h
  | backoff_done hm => exact h
  | retry_ok hm => exact claimedInv_settleCont h
  | retry_fail hm => exact claimedInv_settleCont h
  | pause_call => rw [pauseFn_eq]; exact h
  | resume_call h0 => exact h

theorem claimedInv_reach {c k : Nat} {s : PState}
    (h : PReach (init c k) s) : claimedInv s := by
  induction h with
  | refl => rfl
  | step hr hs ih => exact claimedInv_step hs ih

end ParallelModel

open ParallelModel in
/-- C2: in every reachable state of a `Parallel` run, the values claimed by
`consume` invocations are pairwise distinct (the cursor hands no value to two
invocations), and in a completed run — one whose cursor has reached `count` —
the claimed values are exactly `1 .. count`, so no value is skipped. -/
theorem C2_cursor_exactly_once (c k : Nat) (s : PState)
    (h : PReach (init c k) s) :
    s.claimed.Nodup
      ∧ (s.offset = s.count →
          ∀ v, v ∈ s.claimed ↔ 1 ≤ v ∧ v ≤ s.count) := by
  have hinv := claimedInv_reach h
  unfold claimedInv at hinv
  constructor
  · have hrev : s.claimed.reverse.Nodup := by
      rw [hinv]
      exact (List.nodup_range _).map (fun a b hab => by omega)
    exact List.nodup_reverse.mp hrev
  · intro ho v
    rw [← List.mem_reverse, hinv, List.mem_map]
    constructor
    · rintro ⟨a, ha, hv⟩
      rw [List.mem_range] at ha
      omega
    · rintro ⟨h1, h2⟩
      exact ⟨v - 1, List.mem_range.mpr (by omega), by omega⟩

namespace ParallelModel

/-- State of a width-1, count-1 run after its single claim, used as the
concrete reachable input of the C2 witness. -/
def c2wState : PState :=
  claimTask { init 1 1 with pending := (init 1 1).pending - 1 }

end ParallelModel

open ParallelModel in
/-- Witness for C2 at a completed run of count 1: one step from the start
state claims the single unit. -/
theorem C2_cursor_exactly_once_witness :
    c2wState.claimed.Nodup
      ∧ (1 ∈ c2wState.claimed ↔ 1 ≤ 1 ∧ 1 ≤ c2wState.count) :=
  ⟨(C2_cursor_exactly_once 1 1 c2wState
      (PReach.step PReach.refl (PStep.start_claim (by decide)))).1,
   (C2_cursor_exactly_once 1 1 c2wState
      (PReach.step PReach.refl (PStep.start_claim (by decide)))).2 (by decide) 1⟩

namespace ParallelModel

/-- Start state of the C5 scenario: count 2, concurrency 2. -/
def c5s0 : PState := init 2 2

/-- After the first scheduled `consume` claims unit 1. -/
def c5s1 : PState := claimTask { c5s0 with pending := c5s0.pending - 1 }

/-- After the second scheduled `consume` claims unit 2. -/
def c5s2 : PState := claimTask { c5s1 with pending := c5s1.pending - 1 }

/-- After the first handler call for unit 1 fails and its backoff starts. -/
def c5s3 : PState :=
  { c5s2 with tasks := Phase.backoff 1 retryDelay :: c5s2.tasks.erase (Phase.calling 1) }

/-- After the backoff elapses: the retry re-reads the cursor, now 2. -/
def c5s4 : PState :=
  { c5s3 with
      tasks := Phase.retrying 1 c5s3.offset :: c5s3.tasks.erase (Phase.backoff 1 retryDelay)
      retries := (1, c5s3.offset) :: c5s3.retries }

/-- After the retry of unit 1 succeeds. -/
def c5s5 : PState :=
  settleCont { c5s4 with tasks := c5s4.tasks.erase (Phase.retrying 1 2) }

theorem c5step1 : PStep c5s0 PLabel.claim c5s1 :=
  PStep.start_claim (by decide)

theorem c5step2 : PStep c5s1 PLabel.claim c5s2 :=
  PStep.start_claim (by decide)

theorem c5step3 : PStep c5s2 (PLabel.firstFail 1) c5s3 :=
  PStep.first_fail (by decide)

theorem c5step4 : PStep c5s3 (PLabel.backoffDone 1 c5s3.offset) c5s4 :=
  PStep.backoff_done (by decide)

theorem c5step5 : PStep c5s4 (PLabel.retryOk 1 2) c5s5 :=
  PStep.retry_ok (by decide)

end ParallelModel

open ParallelModel in
/-- C5 counterexample: it is not true that every retry is invoked with the
same unit index as the failed first invocation.  With count 2 and concurrency
2, unit 1 fails first, the other loop has already moved the cursor to 2, and
the retry re-reads `this.offsetCount`, invoking the handler with 2. -/
theorem C5_retry_index_cex :
    ¬ (∀ s : PState, PReach (init 2 2) s → ∀ p ∈ s.retries, p.2 = p.1) := by
  intro hclaim
  have hreach : PReach (init 2 2) c5s4 :=
    PReach.step
      (PReach.step (PReach.step (PReach.step PReach.refl c5step1) c5step2) c5step3)
      c5step4
  have habs := hclaim c5s4 hreach (1, 2) (by decide)
  exact absurd habs (by decide)

open ParallelModel in
/-- C5 amended: a first handler failure schedules exactly one retry after the
fixed 5000 ms backoff; when the backoff elapses the retry is invoked with the
current value of the shared cursor — which equals the failed unit index only
if no other loop claimed a unit in the interim — and a successful retry
surfaces no error to the caller. -/
theorem C5_retry_amended (s s' : PState) (l : PLabel) (hs : PStep s l s') :
    (∀ v, l = PLabel.firstFail v → Phase.backoff v retryDelay ∈ s'.tasks)
      ∧ (∀ v a, l = PLabel.backoffDone v a →
          a = s.offset ∧ (v, s.offset) ∈ s'.retries
            ∧ Phase.retrying v s.offset ∈ s'.tasks)
      ∧ (∀ v a, l = PLabel.retryOk v a → s'.errors = s.errors) := by
  cases hs with
  | start_claim h0 =>
      refine ⟨fun v hl => ?_, fun v a hl => ?_, fun v a hl => ?_⟩ <;> cases hl
  | first_ok hm =>
      refine ⟨fun v hl => ?_, fun v a hl => ?_, fun v a hl => ?_⟩ <;> cases hl
  | first_fail hm =>
      refine ⟨fun v hl => ?_, fun v a hl => ?_, fun v a hl => ?_⟩
      · injection hl with h
        subst h
        exact List.mem_cons_self _ _
      · cases hl
      · cases hl
  | backoff_done hm =>
      refine ⟨fun v hl => ?_, fun v a hl => ?_, fun v a hl => ?_⟩
      · cases hl
      · injection hl with h1 h2
        subst h1
        subst h2
        exact ⟨rfl, List.mem_cons_self _ _, List.mem_cons_self _ _⟩
      · cases hl
  | retry_ok hm =>
      refine ⟨fun v hl => ?_, fun v a hl => ?_, fun v a hl => ?_⟩
      · cases hl
      · cases hl
      · rw [settleCont_errors]
  | retry_fail hm =>
      refine ⟨fun v hl => ?_, fun v a hl => ?_, fun v a hl => ?_⟩ <;> cases hl
  | pause_call =>
      refine ⟨fun v hl => ?_, fun v a hl => ?_, fun v a hl => ?_⟩ <;> cases hl
  | resume_call h0 =>
      refine ⟨fun v hl => ?_, fun v a hl => ?_, fun v a hl => ?_⟩ <;> cases hl

open ParallelModel in
/-- Witness for C5 amended along the concrete scenario: the failure of unit 1
schedules a 5000 ms backoff, the retry fires with the current cursor value,
and the successful retry leaves the error log unchanged. -/
theorem C5_retry_amended_witness :
    Phase.backoff 1 retryDelay ∈ c5s3.tasks
      ∧ (1, c5s3.offset) ∈ c5s4.retries
      ∧ c5s5.errors = c5s4.errors :=
  ⟨(C5_retry_amended c5s2 c5s3 (PLabel.firstFail 1) c5step3).1 1 rfl,
   ((C5_retry_amended c5s3 c5s4 (PLabel.backoffDone 1 c5s3.offset) c5step4).2.1
      1 c5s3.offset rfl).2.1,
   (C5_retry_amended c5s4 c5s5 (PLabel.retryOk 1 2) c5step5).2.2 1 2 rfl⟩

namespace QueueModel

/-- State of a `Queue` pool after `initialize()`, plus the ghost list `busy`
of thread indices that have been handed an item and have not settled yet, and
the flags tracking a `stop()` call in progress.  `pool` records, per thread
slot, whether `close()` has been called on it. -/
structure QState where
  conc : Nat
  active : Bool
  queue : List Nat
  available : List Nat
  busy : List Nat
  onceWaiter : Bool
  stopping : Bool
  closedAll : Bool
  pool : List Bool
deriving DecidableEq, Repr

/-- State right after `initialize()` on a freshly constructed queue whose
backlog already holds `q0`: the active flag is set, `conc` threads are
spawned, and all indices `0 .. conc - 1` are pushed onto the available
list. -/
def initState (c : Nat) (q0 : List Nat) : QState :=
  { conc := c
    active := true
    queue := q0
    available := List.range c
    busy := []
    onceWaiter := false
    stopping := false
    closedAll := false
    pool := List.replicate c false }

/-- `Queue._consume()`: returns unchanged unless the pool is active and both
an available thread index and a backlog item exist; otherwise it shifts the
oldest backlog item and the first available index and posts the item on that
thread (recorded by moving the index into `busy`). -/
def consumeFn (s : QState) : QState :=
  if s.active = false ∨ s.available.length = 0 ∨ s.queue.length = 0 then s
  else
    { s with
        queue := s.queue.tail
        available := s.available.tail
        busy := s.available.headI :: s.busy }

/-- `Queue._fillThreads()`: `while (availableThread.length > 0 &&
queue.length > 0) this._consume();`.  The loop is embedded with explicit
fuel; `none` means the loop has not exited within the given number of
iterations — and since an iteration that changes nothing keeps the condition
true, `none` for every fuel value is non-termination of the source loop. -/
def fillThreads : Nat → QState → Option QState
  | 0, _ => none
  | n + 1, s =>
      if 0 < s.available.length ∧ 0 < s.queue.length then fillThreads n (consumeFn s)
      else some s

/-- `Queue.post(items, once)`: appends the items to the backlog, runs
`_fillThreads()` when an available thread exists, then either stores the
promise resolver as the once-waiter (`once = true`) or resolves immediately.
The returned Bool is true when the promise resolved synchronously; `none`
means `_fillThreads` never exited, so the promise executor never ran to
completion. -/
def postFn (items : List Nat) (once : Bool) (fuel : Nat) (s : QState) :
    Option (QState × Bool) :=
  if 0 < s.available.length then
    match fillThreads fuel { s with queue := s.queue ++ items } with
    | none => none
    | some s2 =>
        if once then some ({ s2 with onceWaiter := true }, false)
        else some (s2, true)
  else
    if once then some ({ s with queue := s.queue ++ items, onceWaiter := true }, false)
    else some ({ s with queue := s.queue ++ items }, true)

/-- `Queue._resolve(threadIdx, err, response)` up to its `_fillThreads` call
(modelled as subsequent dispatch steps): pushes the index back onto the
available list. -/
def settleFn (i : Nat) (s : QState) : QState :=
  { s with available := s.available ++ [i], busy := s.busy.erase i }

/-- Labels of the pool operations. -/
inductive QLabel where
  | postItems (items : List Nat) (once : Bool)
  | dispatch
  | settle (i : Nat)
  | pauseCall
  | resumeCall
  | stopBegin
  | stopEnd
deriving DecidableEq, Repr

/-- One atomic pool operation.  The `_fillThreads` loops triggered by `post`,
`resume` and `_resolve` are decomposed into individual `dispatch` steps
(`_consume` guards itself, so a dispatch step is enabled exactly when an
iteration of the loop would do work); `stop()` is split into the synchronous
prefix that clears the active flag (`stopBegin`) and the return of the
polling loop, which is only enabled once the available list has grown back to
the full concurrency and then closes every pooled thread (`stopEnd`). -/
inductive QStep : QState → QLabel → QState → Prop where
  | post_items {s : QState} {items : List Nat} {once : Bool} :
      QStep s (QLabel.postItems items once)
        { s with queue := s.queue ++ items, onceWaiter := once || s.onceWaiter }
  | dispatch {s : QState} : QStep s QLabel.dispatch (consumeFn s)
  | settle {s : QState} {i : Nat} :
      i ∈ s.busy → QStep s (QLabel.settle i) (settleFn i s)
  | pause_call {s : QState} : QStep s QLabel.pauseCall { s with active := false }
  | resume_call {s : QState} : QStep s QLabel.resumeCall { s with active := true }
  | stop_begin {s : QState} :
      QStep s QLabel.stopBegin { s with active := false, stopping := true }
  | stop_end {s : QState} :
      s.stopping = true → s.available.length = s.conc →
      QStep s QLabel.stopEnd
        { s with closedAll := true, pool := List.replicate s.conc true }

/-- Reachability from a given pool state by pool operations. -/
inductive QReach (s0 : QState) : QState → Prop where
  | refl : QReach s0 s0
  | step {s s' : QState} {l : QLabel} :
      QReach s0 s → QStep s l s' → QReach s0 s'

/-- Slot invariant behind C1 and C7: the available list and the busy ghost
list together hold each thread index `0 .. C - 1` exactly once. -/
def slotInv (C : Nat) (s : QState) : Prop :=
  s.conc = C ∧ (s.available ++ s.busy).Perm (List.range C)

theorem slotInv_consumeFn {C : Nat} {s : QState} (h : slotInv C s) :
    slotInv C (consumeFn s) := by
  unfold consumeFn
  split
  · exact h
  · rename_i hguard
    push_neg at hguard
    refine ⟨h.1, ?_⟩
    have h2 := h.2
    cases hav : s.available with
    | nil => rw [hav] at hguard; simp at hguard
    | cons i av =>
        rw [hav] at h2
        show (av ++ i :: s.busy).Perm (List.range C)
        exact List.perm_middle.trans h2

theorem slotInv_settleFn {C : Nat} {s : QState} {i : Nat} (hi : i ∈ s.busy)
    (h : slotInv C s) : slotInv C (settleFn i s) := by
  refine ⟨h.1, ?_⟩
  have hp : (i :: s.busy.erase i).Perm s.busy := (List.perm_cons_erase hi).symm
  have h1 : (s.available ++ [i] ++ s.busy.erase i).Perm (s.available ++ s.busy) := by
    rw [List.append_assoc]
    exact List.Perm.append_left _ hp
  exact h1.trans h.2

theorem slotInv_step {C : Nat} {s s' : QState} {l : QLabel}
    (hs : QStep s l s') (h : slotInv C s) : slotInv C s' := by
  cases hs with
  | post_items => exact ⟨h.1, h.2⟩
  | dispatch => exact slotInv_consumeFn h
  | settle hi => exact slotInv_settleFn hi h
  | pause_call => exact ⟨h.1, h.2⟩
  | resume_call => exact ⟨h.1, h.2⟩
  | stop_begin => exact ⟨h.1, h.2⟩
  | stop_end h1 h2 => exact ⟨h.1, h.2⟩

theorem slotInv_reach {C : Nat} {q0 : List Nat} {s : QState}
    (h : QReach (initState C q0) s) : slotInv C s := by
  induction h with
  | refl => exact ⟨rfl, by simp [initState]⟩
  | step hr hs ih => exact slotInv_step hs ih

end QueueModel

open QueueModel in
/-- C1: in every reachable state of a pool initialized with concurrency `C`,
the number of available thread indices plus the number of busy threads equals
`C`; each pool operation in the step relation preserves this. -/
theorem C1_available_plus_busy (C : Nat) (q0 : List Nat) (s : QState)
    (h : QReach (initState C q0) s) :
    s.available.length + s.busy.length = C := by
  have hinv := slotInv_reach h
  have hlen := hinv.2.length_eq
  simpa [List.length_append, List.length_range] using hlen

open QueueModel in
/-- Witness for C1 at the freshly initialized pool of concurrency 2. -/
theorem C1_available_plus_busy_witness :
    (initState 2 [3, 4]).available.length + (initState 2 [3, 4]).busy.length = 2 :=
  C1_available_plus_busy 2 [3, 4] (initState 2 [3, 4]) QReach.refl

open QueueModel in
/-- C7: the return of `stop()` (the `stopEnd` step, whose guard is the
polling condition `availableThread.length == concurrence` of the source) can
only fire in a reachable state where no thread is busy, and afterwards every
pooled thread has been closed. -/
theorem C7_stop_returns_only_idle (C : Nat) (q0 : List Nat) (s s' : QState)
    (h : QReach (initState C q0) s) (hstep : QStep s QLabel.stopEnd s') :
    s.busy = [] ∧ s'.closedAll = true ∧ s'.pool = List.replicate C true := by
  cases hstep with
  | stop_end h1 h2 =>
      have hinv := slotInv_reach h
      have hlen : s.available.length + s.busy.length = C := by
        have := hinv.2.length_eq
        simpa [List.length_append, List.length_range] using this
      have hconc : s.conc = C := hinv.1
      have hb : s.busy = [] := by
        rw [← List.length_eq_zero]
        omega
      exact ⟨hb, rfl, by rw [hconc]⟩

namespace QueueModel

/-- Pool of concurrency 1 right after `initialize()` and `pause()`: the
concrete input of the C7 witness and the failing input of C6. -/
def pausedPool : QState := { initState 1 [] with active := false }

/-- The paused pool once `stop()` has additionally cleared the flags. -/
def c7Stopping : QState := { initState 1 [] with active := false, stopping := true }

/-- The pool after `stop()` returns and closes the single thread. -/
def c7Stopped : QState :=
  { c7Stopping with closedAll := true, pool := List.replicate c7Stopping.conc true }

theorem c7step : QStep c7Stopping QLabel.stopEnd c7Stopped :=
  QStep.stop_end rfl (by decide)

end QueueModel

open QueueModel in
/-- Witness for C7 on a concrete pool of concurrency 1 where `stop()` was
called right after initialization. -/
theorem C7_stop_returns_only_idle_witness :
    c7Stopping.busy = [] ∧ c7Stopped.closedAll = true
      ∧ c7Stopped.pool = List.replicate 1 true :=
  C7_stop_returns_only_idle 1 [] c7Stopping c7Stopped
    (QReach.step QReach.refl QStep.stop_begin) c7step

open QueueModel in
/-- C6 (code bug): posting to a paused pool that has an idle thread never
resolves — for every amount of fuel, the `_fillThreads` while loop fails to
exit, because its condition only checks the available list and the backlog
while the `_consume` body additionally checks the active flag and therefore
changes nothing.  The source loops forever and the promise returned by
`post([5], false)` never settles, contradicting the claim that with
`awaitDrain = false` it resolves immediately in every pool state including
paused. -/
theorem C6_post_hangs_when_paused (n : Nat) :
    postFn [5] false n pausedPool = none := by
  have hfix : consumeFn { pausedPool with queue := pausedPool.queue ++ [5] }
      = { pausedPool with queue := pausedPool.queue ++ [5] } := by decide
  have hfill : ∀ m, fillThreads m { pausedPool with queue := pausedPool.queue ++ [5] } = none := by
    intro m
    induction m with
    | zero => rfl
    | succ m ih =>
        rw [fillThreads, if_pos (by decide), hfix]
        exact ih
  unfold postFn
  rw [if_pos (by decide : 0 < pausedPool.available.length), hfill n]
